import Mathlib

/- A shallow embedding of the module-orchestration core of the Go
repository `common` (src/modules.go, src/async_task.go,
src/file_storage.go, src/helpers.go).  Pure Lean functions mirror the Go
functions: the mutable registry map is passed explicitly, goroutine side
effects are recorded as explicit event traces, and the process-exit
helper (log.Fatal) is modelled by ending the trace at the fatal event,
since no code after a log.Fatal call ever executes. -/

set_option autoImplicit false

namespace Common

/-- Model of the Go interface IModule (src/modules.go:35-44).  A module is
abstracted by its identifier, type tag, started flag, and the results its
methods return: loadCfg models LoadConfig(params) (some s = error s),
startErr models Start(), stopErr models Stop(), dataHandler models
DataHandler(ctx, msgType, data) with the context argument dropped (it
does not influence the control flow being modelled). -/
structure Module where
  id : String
  type : String
  isStarted : Bool
  loadCfg : String → Option String
  startErr : Option String
  stopErr : Option String
  dataHandler : Int → String → Option String

/-- Model of ModuleConfig (src/modules.go:13-19); Params (a raw JSON blob)
is modelled as an opaque string. -/
structure ModuleConfig where
  id : String
  type : String
  disable : Bool
  tasksQueueSize : Int
  params : String
deriving DecidableEq

/-- The supervisor's registry ModuleServer.modules : map[string]IModule
(src/modules.go:63), modelled as an association list.  List.lookup
returns the most recent binding, so consing a binding is exactly the Go
map assignment (last write wins).  Reachable registries hold no nil
modules: LoadConfig calls newModule.LoadConfig right after registering,
which would panic on nil, so values are plain Module; the defensive nil
guards of startModule/stopModule are kept by passing an Option. -/
abbrev Registry := List (String × Module)

/-- Go map assignment ptr.modules[cfg.ID] = newModule (src/modules.go:108). -/
def regInsert (reg : Registry) (id : String) (m : Module) : Registry :=
  (id, m) :: reg

/-- The three error shapes LoadConfig can return (src/modules.go:93,105,111),
kept structured; render gives the exact Go message. -/
inductive LoadErr where
  | emptyConfig
  | createFailed (id msg : String)
  | configFailed (id msg : String)
deriving DecidableEq

/-- The exact error strings built at src/modules.go:93,105,111. -/
def LoadErr.render : LoadErr → String
  | LoadErr.emptyConfig => "there are no any modules in config"
  | LoadErr.createFailed id msg => "creation module " ++ id ++ " failed, " ++ msg
  | LoadErr.configFailed id msg => "loading config for module " ++ id ++ " failed, " ++ msg

/-- Model of ModuleCreator (src/modules.go:57).  The IServer handle passed
to the factory is dropped (the factory result is what matters here); the
remaining arguments are type, id and tasksQueueSize. -/
abbrev ModuleCreator := String → String → Int → Except String Module

/-- The loop body of ModuleServer.LoadConfig (src/modules.go:98-115):
skip disabled entries; create the module, failing on factory error;
register it into the map; then call its LoadConfig, failing on error;
accumulate the id.  The registry is threaded through and, as in the Go
code, is not rolled back on error. -/
def loadConfigAux (creator : ModuleCreator) :
    Registry → List String → List ModuleConfig → Registry × Except LoadErr (List String)
  | reg, acc, [] => (reg, Except.ok acc.reverse)
  | reg, acc, cfg :: rest =>
    if cfg.disable then
      loadConfigAux creator reg acc rest
    else
      match creator cfg.type cfg.id cfg.tasksQueueSize with
      | Except.error e => (reg, Except.error (LoadErr.createFailed cfg.id e))
      | Except.ok newModule =>
        match newModule.loadCfg cfg.params with
        | some e => (regInsert reg cfg.id newModule, Except.error (LoadErr.configFailed cfg.id e))
        | none => loadConfigAux creator (regInsert reg cfg.id newModule) (cfg.id :: acc) rest

/-- ModuleServer.LoadConfig (src/modules.go:89-118): fails up front when
the raw descriptor list is empty (the check is len(config.Modules) == 0,
before disabled entries are filtered), otherwise runs the loop. -/
def loadConfig (creator : ModuleCreator) (reg : Registry) (cfgs : List ModuleConfig) :
    Registry × Except LoadErr (List String) :=
  if cfgs.length = 0 then (reg, Except.error LoadErr.emptyConfig)
  else loadConfigAux creator reg [] cfgs

theorem loadConfigAux_ne_emptyConfig (creator : ModuleCreator) :
    ∀ (cfgs : List ModuleConfig) (reg : Registry) (acc : List String),
      (loadConfigAux creator reg acc cfgs).2 ≠ Except.error LoadErr.emptyConfig := by
  intro cfgs
  induction cfgs with
  | nil => intro reg acc; simp [loadConfigAux]
  | cons cfg rest ih =>
    intro reg acc
    rw [loadConfigAux]
    by_cases hd : cfg.disable = true
    · rw [if_pos hd]; exact ih reg acc
    · rw [if_neg hd]
      cases hc : creator cfg.type cfg.id cfg.tasksQueueSize with
      | error e => simp
      | ok nm =>
        simp only []
        cases hl : nm.loadCfg cfg.params with
        | some e => simp
        | none =>
          simp only []
          exact ih (regInsert reg cfg.id nm) (cfg.id :: acc)

theorem loadConfigAux_all_disabled (creator : ModuleCreator) :
    ∀ (cfgs : List ModuleConfig) (reg : Registry) (acc : List String),
      (∀ c ∈ cfgs, c.disable = true) →
      loadConfigAux creator reg acc cfgs = (reg, Except.ok acc.reverse) := by
  intro cfgs
  induction cfgs with
  | nil => intro reg acc _; simp [loadConfigAux]
  | cons cfg rest ih =>
    intro reg acc hall
    have hd : cfg.disable = true := hall cfg (List.mem_cons_self cfg rest)
    have hrest : ∀ c ∈ rest, c.disable = true :=
      fun c hc => hall c (List.mem_cons_of_mem cfg hc)
    simp only [loadConfigAux, hd, if_true]
    exact ih reg acc hrest

/-- C6: loadConfiguration fails with the empty-configuration error iff the
raw descriptor list is empty; the emptiness check is on the raw list
length, so a non-empty list whose entries are all disabled does not fail
with this error (it succeeds with an empty loaded-ids list and an
unchanged registry).  In particular loadConfiguration([]) always fails.
(src/modules.go:89-117) -/
theorem loadConfig_empty_iff (creator : ModuleCreator) (reg : Registry) (cfgs : List ModuleConfig) :
    ((loadConfig creator reg cfgs).2 = Except.error LoadErr.emptyConfig ↔ cfgs = []) ∧
    (cfgs ≠ [] → (∀ c ∈ cfgs, c.disable = true) →
      loadConfig creator reg cfgs = (reg, Except.ok [])) := by
  constructor
  · unfold loadConfig
    rcases cfgs with _ | ⟨c, rest⟩
    · simp
    · simp only [List.length_cons]
      have hne : ¬ (c :: rest).length = 0 := by simp
      simp only [List.length_cons] at hne
      rw [if_neg hne]
      constructor
      · intro h; exact absurd h (loadConfigAux_ne_emptyConfig creator (c :: rest) reg [])
      · intro h; exact absurd h (List.cons_ne_nil c rest)
  · intro hne hall
    unfold loadConfig
    rw [if_neg (by simpa using hne)]
    simpa using loadConfigAux_all_disabled creator cfgs reg [] hall

/-- A concrete module whose configure step (LoadConfig) always fails. -/
def moduleCfgFail : Module :=
  { id := ("A"), type := ("t"), isStarted := false,
    loadCfg := fun _ => some ("boom"), startErr := none, stopErr := none,
    dataHandler := fun _ _ => none }

/-- A concrete factory that always returns moduleCfgFail. -/
def creatorCfgFail : ModuleCreator := fun _ _ _ => Except.ok moduleCfgFail

/-- A concrete descriptor for id "A". -/
def cfgA : ModuleConfig :=
  { id := ("A"), type := ("t"), disable := false, tasksQueueSize := 0, params := ("p") }

/-- A concrete disabled descriptor. -/
def cfgDisabled : ModuleConfig :=
  { id := ("D"), type := ("t"), disable := true, tasksQueueSize := 0, params := ("") }

/-- Witness for C6: a non-empty, all-disabled descriptor list succeeds with
an empty loaded-ids list and unchanged registry. -/
theorem loadConfig_empty_iff_witness :
    loadConfig creatorCfgFail [] [cfgDisabled] = ([], Except.ok []) :=
  (loadConfig_empty_iff creatorCfgFail [] [cfgDisabled]).2 (by simp) (by decide)

theorem loadConfigAux_configFailed_registered (creator : ModuleCreator) (id e : String) :
    ∀ (cfgs : List ModuleConfig) (reg : Registry) (acc : List String),
      (loadConfigAux creator reg acc cfgs).2 = Except.error (LoadErr.configFailed id e) →
      (List.lookup id (loadConfigAux creator reg acc cfgs).1).isSome = true := by
  intro cfgs
  induction cfgs with
  | nil => intro reg acc h; simp [loadConfigAux] at h
  | cons cfg rest ih =>
    intro reg acc h
    by_cases hd : cfg.disable = true
    · rw [loadConfigAux, if_pos hd] at h ⊢
      exact ih reg acc h
    · rw [loadConfigAux, if_neg hd] at h ⊢
      split at h
      next er hc =>
        simp at h
      next nm hc =>
        split at h
        next er hl =>
          have h2 : cfg.id = id ∧ er = e := by simpa using h
          simp [regInsert, List.lookup, h2.1]
        next hl =>
          exact ih (regInsert reg cfg.id nm) (cfg.id :: acc) h

/-- C5 (amended): during loadConfiguration the module is registered into
the map before its configure (LoadConfig) call is made; consequently when
configure fails, loadConfiguration fails with the config error naming the
id and the module REMAINS registered — the registry is not unchanged on
the configure-error path.  (src/modules.go:98-117: the map assignment at
line 108 precedes the LoadConfig call at line 110, and nothing removes
the entry on error.) -/
theorem loadConfig_registers_before_configure (creator : ModuleCreator) (reg : Registry)
    (cfgs : List ModuleConfig) (id e : String) :
    (loadConfig creator reg cfgs).2 = Except.error (LoadErr.configFailed id e) →
    (List.lookup id (loadConfig creator reg cfgs).1).isSome = true := by
  intro h
  unfold loadConfig at h ⊢
  by_cases hlen : cfgs.length = 0
  · rw [if_pos hlen] at h; simp at h
  · rw [if_neg hlen] at h ⊢
    exact loadConfigAux_configFailed_registered creator id e cfgs reg [] h

/-- Witness for C5 (amended): on a concrete one-descriptor input whose
configure fails, the failing module is found in the resulting registry. -/
theorem loadConfig_registers_before_configure_witness :
    (List.lookup ("A") (loadConfig creatorCfgFail [] [cfgA]).1).isSome = true :=
  loadConfig_registers_before_configure creatorCfgFail [] [cfgA] ("A") ("boom") rfl

/-- Counterexample for C5 as stated: on the same concrete input,
loadConfiguration fails with the config error naming "A", yet the
registry DOES contain module "A" (the claim says it does not). -/
theorem loadConfig_configure_error_keeps_module :
    (loadConfig creatorCfgFail [] [cfgA]).2 = Except.error (LoadErr.configFailed ("A") ("boom")) ∧
    List.lookup ("A") (loadConfig creatorCfgFail [] [cfgA]).1 = some moduleCfgFail := by
  constructor
  · rfl
  · rfl

/-- Outcome of ModuleServer.CallModule: whether the module's DataHandler
was invoked, and the returned error value (none = nil). -/
structure CallOutcome where
  handlerInvoked : Bool
  result : Option String
deriving DecidableEq

/-- ModuleServer.CallModule (src/modules.go:220-231): look the id up in
the registry; an unregistered id and a not-started module produce errors
without touching the module; otherwise the call is forwarded to
DataHandler and its result returned. -/
def callModule (reg : Registry) (id : String) (msgType : Int) (data : String) : CallOutcome :=
  match List.lookup id reg with
  | none => { handlerInvoked := false, result := some ("module " ++ id ++ " not found") }
  | some md =>
    if !md.isStarted then
      { handlerInvoked := false, result := some ("module " ++ id ++ " is not started") }
    else
      { handlerInvoked := true, result := md.dataHandler msgType data }

/-- C2: CallModule fails with the not-found error when the id is
unregistered, fails with the not-started error when the registered module
is not started, returns the DataHandler result when it is started, and
the DataHandler is invoked only when the module is started.
(src/modules.go:220-231) -/
theorem callModule_routing (reg : Registry) (id : String) (msgType : Int) (data : String) :
    (List.lookup id reg = none →
      callModule reg id msgType data =
        { handlerInvoked := false, result := some ("module " ++ id ++ " not found") }) ∧
    (∀ md, List.lookup id reg = some md → md.isStarted = false →
      callModule reg id msgType data =
        { handlerInvoked := false, result := some ("module " ++ id ++ " is not started") }) ∧
    (∀ md, List.lookup id reg = some md → md.isStarted = true →
      callModule reg id msgType data =
        { handlerInvoked := true, result := md.dataHandler msgType data }) ∧
    ((callModule reg id msgType data).handlerInvoked = true →
      ∃ md, List.lookup id reg = some md ∧ md.isStarted = true) := by
  unfold callModule
  cases List.lookup id reg with
  | none =>
    refine ⟨fun _ => rfl, ?_, ?_, ?_⟩
    · intro md hmd; exact absurd hmd (by simp)
    · intro md hmd; exact absurd hmd (by simp)
    · intro hinv; simp at hinv
  | some md =>
    by_cases hs : md.isStarted = true
    · refine ⟨?_, ?_, ?_, ?_⟩
      · intro hc; exact absurd hc (by simp)
      · intro md2 hmd2 hs2
        obtain rfl : md = md2 := Option.some.inj hmd2
        rw [hs] at hs2; exact absurd hs2 (by simp)
      · intro md2 hmd2 _
        obtain rfl : md = md2 := Option.some.inj hmd2
        simp [hs]
      · intro _; exact ⟨md, rfl, hs⟩
    · have hs2 : md.isStarted = false := by simpa using hs
      refine ⟨?_, ?_, ?_, ?_⟩
      · intro hc; exact absurd hc (by simp)
      · intro md2 hmd2 _
        obtain rfl : md = md2 := Option.some.inj hmd2
        simp [hs2]
      · intro md2 hmd2 hs3
        obtain rfl : md = md2 := Option.some.inj hmd2
        rw [hs2] at hs3; exact absurd hs3 (by simp)
      · intro hinv
        simp [hs2] at hinv

/-- Witness for C2: a registered but not-started module yields the
not-started error without the handler being invoked. -/
theorem callModule_routing_witness :
    callModule [(("A"), moduleCfgFail)] ("A") 1 ("x") =
      { handlerInvoked := false, result := some ("module " ++ ("A") ++ " is not started") } :=
  (callModule_routing [(("A"), moduleCfgFail)] ("A") 1 ("x")).2.1 moduleCfgFail rfl rfl

/-- ModuleServer.startModule (src/modules.go:196-206): guard against a nil
module and against an already-started module, otherwise call Start() and
return its error. -/
def startModule (id : String) (m : Option Module) : Option String :=
  match m with
  | none => some ("module " ++ id ++ " is nil")
  | some md =>
    if md.isStarted then some ("module " ++ id ++ " already started")
    else md.startErr

/-- ModuleServer.stopModule (src/modules.go:208-218): guard against a nil
module and against a not-started module, otherwise call Stop() and
return its error. -/
def stopModule (id : String) (m : Option Module) : Option String :=
  match m with
  | none => some ("module " ++ id ++ " is nil")
  | some md =>
    if !md.isStarted then some ("module " ++ id ++ " already stopped")
    else md.stopErr

/-- One step of the error-aggregation loop of Start/Stop
(src/modules.go:140-148): a non-nil error from the drained queue is
appended in brackets, preceded by a comma when errList is non-empty. -/
def appendErr (acc : String) (e : Option String) : String :=
  match e with
  | none => acc
  | some msg => (if 0 < acc.length then acc ++ ", " else acc) ++ "[" ++ msg ++ "]"

/-- The whole aggregation loop over the drained error queue. -/
def collectErrors (errs : List (Option String)) : String :=
  List.foldl appendErr ("") errs

/-- ModuleServer.Start (src/modules.go:120-155): one start job per
registered module is submitted to the worker pool and all of them are run
to completion (WaitAll) before the error queue is drained — the fan-out
has no early exit, which the model reflects by mapping startModule over
the entire registry.  The first component instruments which modules'
start was attempted (every one); the second is the aggregated error,
none when errList stayed empty. -/
def serverStart (reg : Registry) : List String × Option String :=
  let errList := collectErrors (reg.map fun p => startModule p.1 (some p.2))
  (reg.map Prod.fst, if 0 < errList.length then some errList else none)

/-- ModuleServer.Stop (src/modules.go:157-194): the symmetric fan-out with
stopModule (the context cancellation it also performs has no bearing on
the returned error). -/
def serverStop (reg : Registry) : Option String :=
  let errList := collectErrors (reg.map fun p => stopModule p.1 (some p.2))
  if 0 < errList.length then some errList else none

theorem foldl_appendErr_extends (errs : List (Option String)) :
    ∀ acc : String, ∃ s, List.foldl appendErr acc errs = acc ++ s := by
  induction errs with
  | nil => intro acc; exact ⟨(""), (String.append_empty acc).symm⟩
  | cons e rest ih =>
    intro acc
    obtain ⟨s, hs⟩ := ih (appendErr acc e)
    rw [List.foldl_cons, hs]
    cases e with
    | none => exact ⟨s, rfl⟩
    | some msg =>
      by_cases hl : 0 < acc.length
      · exact ⟨", " ++ "[" ++ msg ++ "]" ++ s, by simp [appendErr, hl, String.append_assoc]⟩
      · exact ⟨"[" ++ msg ++ "]" ++ s, by simp [appendErr, hl, String.append_assoc]⟩

theorem mem_foldl_appendErr_bracket (msg : String) :
    ∀ (errs : List (Option String)) (acc : String), some msg ∈ errs →
      ("[" ++ msg ++ "]").data <:+: (List.foldl appendErr acc errs).data := by
  intro errs
  induction errs with
  | nil => intro acc h; simp at h
  | cons e rest ih =>
    intro acc h
    rw [List.foldl_cons]
    rcases List.mem_cons.mp h with heq | hmem
    · subst heq
      obtain ⟨s, hs⟩ := foldl_appendErr_extends rest (appendErr acc (some msg))
      rw [hs]
      have hsuf : ("[" ++ msg ++ "]").data <:+ (appendErr acc (some msg)).data := by
        simp only [appendErr, String.data_append, List.append_assoc]
        exact List.suffix_append _ _
      have h1 : ("[" ++ msg ++ "]").data <:+: (appendErr acc (some msg)).data := (hsuf).isInfix
      have h2 : (appendErr acc (some msg)).data <+: (appendErr acc (some msg) ++ s).data := by
        rw [String.data_append]
        exact List.prefix_append _ _
      exact h1.trans (h2).isInfix
    · exact ih (appendErr acc e) hmem

theorem collectErrors_bracket (errs : List (Option String)) (msg : String)
    (h : some msg ∈ errs) : ("[" ++ msg ++ "]").data <:+: (collectErrors errs).data :=
  mem_foldl_appendErr_bracket msg errs ("") h

theorem collectErrors_pos (errs : List (Option String)) (msg : String)
    (h : some msg ∈ errs) : 0 < (collectErrors errs).length := by
  have hle := (collectErrors_bracket errs msg h).length_le
  have hx : 0 < ("[" ++ msg ++ "]").data.length := by
    simp [String.data_append]
  have hlen : (collectErrors errs).length = (collectErrors errs).data.length := rfl
  omega

theorem collectErrors_all_none :
    ∀ errs : List (Option String), (∀ e ∈ errs, e = none) → collectErrors errs = ("") := by
  intro errs
  unfold collectErrors
  induction errs with
  | nil => intro _; rfl
  | cons e rest ih =>
    intro h
    have he : e = none := h e (List.mem_cons_self e rest)
    rw [List.foldl_cons, he]
    exact ih (fun x hx => h x (List.mem_cons_of_mem e hx))

/-- C1 (amended): Start() attempts the start call of all N registered
modules even when some of them fail (the attempted-id instrumentation
lists the whole registry), it returns an error exactly when some start
call failed, and every failing module's error message appears bracketed
inside the aggregate error.  The failing module's id itself is guaranteed
to be named only by the supervisor's own guard errors (nil module,
already started); an error returned by module.Start() is included
verbatim and need not name the id.  (src/modules.go:120-155,196-206) -/
theorem serverStart_attempts_all_and_aggregates (reg : Registry) :
    (serverStart reg).1 = reg.map Prod.fst ∧
    ((serverStart reg).2 = none ↔ ∀ p ∈ reg, startModule p.1 (some p.2) = none) ∧
    (∀ p ∈ reg, ∀ e, startModule p.1 (some p.2) = some e →
      ∃ msg, (serverStart reg).2 = some msg ∧ ("[" ++ e ++ "]").data <:+: msg.data) := by
  refine ⟨rfl, ⟨?_, ?_⟩, ?_⟩
  · intro hnone p hp
    by_contra hne
    obtain ⟨e, he⟩ := Option.ne_none_iff_exists'.mp hne
    have hmem : some e ∈ reg.map fun q => startModule q.1 (some q.2) :=
      List.mem_map.mpr ⟨p, hp, by rw [he]⟩
    have hpos := collectErrors_pos _ e hmem
    have : (serverStart reg).2 =
        some (collectErrors (reg.map fun q => startModule q.1 (some q.2))) := by
      show (if 0 < (collectErrors (reg.map fun q => startModule q.1 (some q.2))).length
            then some (collectErrors (reg.map fun q => startModule q.1 (some q.2)))
            else none) = _
      rw [if_pos hpos]
    rw [hnone] at this
    exact Option.noConfusion this
  · intro hall
    have hz : collectErrors (reg.map fun q => startModule q.1 (some q.2)) = ("") := by
      refine collectErrors_all_none _ ?_
      intro e he
      obtain ⟨p, hp, hpe⟩ := List.mem_map.mp he
      rw [← hpe]
      exact hall p hp
    show (if 0 < (collectErrors (reg.map fun q => startModule q.1 (some q.2))).length
          then some (collectErrors (reg.map fun q => startModule q.1 (some q.2)))
          else none) = none
    rw [hz]
    rfl
  · intro p hp e he
    have hmem : some e ∈ reg.map fun q => startModule q.1 (some q.2) :=
      List.mem_map.mpr ⟨p, hp, by rw [he]⟩
    have hpos := collectErrors_pos _ e hmem
    refine ⟨collectErrors (reg.map fun q => startModule q.1 (some q.2)), ?_,
      collectErrors_bracket _ e hmem⟩
    show (if 0 < (collectErrors (reg.map fun q => startModule q.1 (some q.2))).length
          then some (collectErrors (reg.map fun q => startModule q.1 (some q.2)))
          else none) = _
    rw [if_pos hpos]

/-- A concrete module whose Start() fails with an error message that never
mentions the module id. -/
def moduleBoom : Module :=
  { id := ("B"), type := ("t"), isStarted := false,
    loadCfg := fun _ => none, startErr := some ("boom"), stopErr := none,
    dataHandler := fun _ _ => none }

/-- Witness for C1 (amended): on a concrete two-module registry where
module "B" fails to start, both modules are attempted and the failing
start error appears bracketed in the aggregate message. -/
theorem serverStart_attempts_witness :
    ∃ msg, (serverStart [(("B"), moduleBoom)]).2 = some msg ∧
      ("[" ++ ("boom") ++ "]").data <:+: msg.data :=
  (serverStart_attempts_all_and_aggregates [(("B"), moduleBoom)]).2.2
    (("B"), moduleBoom) (List.mem_cons_self _ _) ("boom") rfl

/-- Counterexample for C1 as stated: with the single module "B" whose
Start() fails with "boom", Start() returns the aggregate error "[boom]",
in which the failing module's id "B" does not occur at all — the error
does not name every failing module's id. -/
theorem serverStart_error_omits_id :
    (serverStart [(("B"), moduleBoom)]).2 = some ("[boom]") ∧
    ¬ (("B").data <:+: ("[boom]").data) := by
  constructor
  · rfl
  · decide

/-- Observable events of the escalation paths: log lines, fatal process
termination, an armed watchdog goroutine, and a Go runtime panic.
TerminateCurrentProcess (src/helpers.go:135-137) is log.Fatal: it prints
and exits the process, so a trace ends at a fatal or crash event —
nothing written after such a call ever executes. -/
inductive Event where
  | log (msg : String)
  | fatal (reason : String)
  | watchdogArmed (timeout : Nat)
  | crash (msg : String)
deriving DecidableEq

/-- TerminateCurrentProcess (src/helpers.go:135-137): log.Fatal with the
given reason, modelled as the final, process-ending event of a trace. -/
def terminateCurrentProcess (reason : String) : Event :=
  Event.fatal ("F> terminating current process, reason: " ++ reason)

/-- The restart watchdog's deadline check (src/modules.go:253): it fires
(escalating fatally) when the module is not started at the deadline. -/
def restartWatchdogFires (md : Module) : Bool := !md.isStarted

/-- The check inside Terminate's watchdog goroutine (src/modules.go:271):
textually it fires when the module is NOT started, i.e. when the module
has reached the stopped state — and the goroutine itself is spawned only
after TerminateCurrentProcess has already ended the process. -/
def terminateWatchdogFires (md : Module) : Bool := !md.isStarted

/-- ModuleServer.RestartModule (src/modules.go:233-257) as an event trace.
The not-found branch only logs — there is no return statement — so
control falls through to module.Stop() on the nil interface value, a Go
runtime panic.  On a found module, a stop or start failure calls
TerminateCurrentProcess (fatal, trace ends); on success the watchdog
goroutine is armed and, after the timeout, escalates when
restartWatchdogFires holds of the module's state at the deadline. -/
def restartModule (reg : Registry) (id reason : String) (timeout : Nat) : List Event :=
  match List.lookup id reg with
  | none =>
    [Event.log ("W> module " ++ id ++ " requested a restart, reason: " ++ reason),
     Event.log ("E> module " ++ id ++ " not found"),
     Event.crash ("runtime error: invalid memory address or nil pointer dereference")]
  | some md =>
    match md.stopErr with
    | some e =>
      [Event.log ("W> module " ++ id ++ " requested a restart, reason: " ++ reason),
       terminateCurrentProcess ("module '" ++ md.id ++ "' stop failed: " ++ e)]
    | none =>
      match md.startErr with
      | some e =>
        [Event.log ("W> module " ++ id ++ " requested a restart, reason: " ++ reason),
         terminateCurrentProcess ("module '" ++ md.id ++ "' start failed: " ++ e)]
      | none =>
        [Event.log ("W> module " ++ id ++ " requested a restart, reason: " ++ reason),
         Event.watchdogArmed timeout]

/-- ModuleServer.Terminate (src/modules.go:259-275) as an event trace: log
the stop request, stop all modules, then TerminateCurrentProcess on
either branch — stop failure (line 263) or stop success (line 267).
log.Fatal ends the process there, so the watchdog goroutine of lines
269-274 is unreachable and never appears in a trace. -/
def terminate (reg : Registry) (md : Module) (reason : String) (timeout : Nat) : List Event :=
  match serverStop reg with
  | some err =>
    [Event.log ("E> module " ++ md.id ++ " requested a stop, reason: " ++ reason),
     terminateCurrentProcess ("some modules stop failed: " ++ err)]
  | none =>
    [Event.log ("E> module " ++ md.id ++ " requested a stop, reason: " ++ reason),
     terminateCurrentProcess ("all modules stopped correctly")]

/-- C3: Terminate always ends the hosting process once the all-modules
stop has been attempted: whether or not every module's stop succeeded,
the trace ends in the fatal TerminateCurrentProcess event.
(src/modules.go:259-275, src/helpers.go:135-137) -/
theorem terminate_always_ends_process (reg : Registry) (md : Module) (reason : String)
    (timeout : Nat) :
    ∃ r, (terminate reg md reason timeout).getLast? = some (Event.fatal r) := by
  unfold terminate
  cases serverStop reg with
  | none => exact ⟨_, rfl⟩
  | some err => exact ⟨_, rfl⟩

/-- C4 is false of the code: after Terminate, no watchdog ever runs — on
both branches TerminateCurrentProcess (log.Fatal) ends the process before
the goroutine at src/modules.go:269 is spawned, so a terminate trace
never contains an armed watchdog; moreover the check that dead goroutine
would perform (line 271) is !IsStarted, which fires when the module HAS
reached the stopped state, not when it has failed to reach it. -/
theorem terminate_watchdog_never_runs (reg : Registry) (md : Module) (reason : String)
    (timeout wt : Nat) :
    ((terminate reg md reason timeout).contains (Event.watchdogArmed wt)) = false ∧
    terminateWatchdogFires md = !md.isStarted := by
  refine ⟨?_, rfl⟩
  unfold terminate
  cases serverStop reg with
  | none => simp [terminateCurrentProcess, List.contains]
  | some err => simp [terminateCurrentProcess, List.contains]

/-- C10 is false of the code: RestartModule on an unregistered id logs the
not-found condition but, lacking a return statement, falls through and
calls Stop() on the nil interface value — a nil-pointer runtime panic —
rather than returning safely; evaluated here on the empty registry.
(src/modules.go:233-244) -/
theorem restartModule_missing_id_panics :
    restartModule [] ("ghost") ("dependency lost") 5 =
      [Event.log ("W> module ghost requested a restart, reason: dependency lost"),
       Event.log ("E> module ghost not found"),
       Event.crash ("runtime error: invalid memory address or nil pointer dereference")] := rfl

/-- The deferred drain loop of TasksExecutor.executionCycle
(src/async_task.go:224-238): keep receiving queued tasks and running them
until the channel is empty (the default branch returns).  It runs only
when the terminate flag is not set. -/
def drainLoop {α : Type} : List α → List α
  | [] => []
  | t :: rest => t :: drainLoop rest

/-- The main select loop of executionCycle (src/async_task.go:240-249),
abstracted over the select nondeterminism: breakAfter is the number of
tasks the loop consumes before the break signal wins the select.  Returns
the tasks executed by the main loop and the queue contents at break time.
Submissions after the break are refused (Execute and ExecuteAnyway check
IsStoped first, src/async_task.go:161-186), so that queue is final. -/
def mainLoop {α : Type} : List α → Nat → List α × List α
  | pending, 0 => ([], pending)
  | [], _ + 1 => ([], [])
  | t :: rest, k + 1 =>
    (t :: (mainLoop rest k).1, (mainLoop rest k).2)

/-- TasksExecutor.executionCycle (src/async_task.go:218-250): the tasks
executed, in order — the main loop's tasks and then, unless the terminate
flag was set, the drained remainder of the queue. -/
def executionCycle {α : Type} (queued : List α) (breakAfter : Nat) (terminateFlag : Bool) :
    List α :=
  (mainLoop queued breakAfter).1 ++
    (if terminateFlag then [] else drainLoop (mainLoop queued breakAfter).2)

/-- The two shutdown paths of the executor: a plain break
(managedObject.Break/BreakAndWait, src/async_task.go:31-42) leaves the
terminate flag false; TasksExecutor.Terminate (src/async_task.go:154-159)
sets terminate to true and then breaks, abandoning the queue. -/
inductive ShutdownKind where
  | breakShutdown
  | terminateShutdown
deriving DecidableEq

/-- The terminate flag executionCycle's deferred drain sees under each
shutdown kind (src/async_task.go:154-159,224-227). -/
def terminateFlagAfter : ShutdownKind → Bool
  | ShutdownKind.breakShutdown => false
  | ShutdownKind.terminateShutdown => true

/-- A shutdown of the executor: run executionCycle with the flag the
chosen shutdown path leaves behind. -/
def executorShutdownRun {α : Type} (queued : List α) (breakAfter : Nat) (k : ShutdownKind) :
    List α :=
  executionCycle queued breakAfter (terminateFlagAfter k)

theorem drainLoop_id {α : Type} : ∀ l : List α, drainLoop l = l := by
  intro l
  induction l with
  | nil => rfl
  | cons t rest ih => rw [drainLoop, ih]

theorem mainLoop_take_drop {α : Type} :
    ∀ (l : List α) (k : Nat), mainLoop l k = (l.take k, l.drop k) := by
  intro l
  induction l with
  | nil => intro k; cases k <;> rfl
  | cons t rest ih =>
    intro k
    cases k with
    | zero => rfl
    | succ k => rw [mainLoop, ih]; rfl

/-- C7: when the executor shuts down, the work items queued at that moment
are drained and executed before the processing loop finishes — whatever
the break timing, the executed sequence is the entire queue — unless the
shutdown goes through Terminate (the abandon-queue variant, which sets
the terminate flag before breaking), in which case the
queued-but-not-yet-run items are discarded and only the items run before
the break execute.  (src/async_task.go:154-159,218-250) -/
theorem executor_drains_unless_terminated {α : Type} (queued : List α) (breakAfter : Nat) :
    executorShutdownRun queued breakAfter ShutdownKind.breakShutdown = queued ∧
    executorShutdownRun queued breakAfter ShutdownKind.terminateShutdown =
      queued.take breakAfter := by
  constructor
  · simp [executorShutdownRun, executionCycle, terminateFlagAfter, mainLoop_take_drop,
      drainLoop_id, List.take_append_drop]
  · simp [executorShutdownRun, executionCycle, terminateFlagAfter, mainLoop_take_drop]

/-- repeatableTask.Execute (src/async_task.go:98-115) re-invokes the body
back-to-back; after each run, a non-blocking select exits on the fired
timer or on the closed break channel, and otherwise resets the timer and
loops.  Time model: iteration i is the i-th body run and dur i its span;
the timer is reset right before each run (created just before the first),
so at the post-run check of iteration i it has fired exactly when
timeout < dur i; cancelled i says whether Break (src/async_task.go:31-35)
had closed the break channel by that check.  Returns the iteration at
which the loop exits, or none when it has not exited within fuel
iterations. -/
def repeatExit (timeout : Nat) (dur : Nat → Nat) (cancelled : Nat → Bool) :
    Nat → Nat → Option Nat
  | 0, _ => none
  | fuel + 1, i =>
    if timeout < dur i then some i
    else if cancelled i then some i
    else repeatExit timeout dur cancelled fuel (i + 1)

/-- C8: the repeatable task's loop exits exactly when cancellation has
been requested or a single body invocation's span exceeds the configured
interval since the last timer reset: an exit at iteration j means the
exit condition holds at j and at no earlier iteration; and for a fast
body (every span within the interval) with no cancellation the loop never
exits on the timer — it runs until external cancellation.
(src/async_task.go:31-35,98-115) -/
theorem repeatableTask_exit_condition (timeout : Nat) (dur : Nat → Nat)
    (cancelled : Nat → Bool) :
    (∀ fuel i j, repeatExit timeout dur cancelled fuel i = some j →
      i ≤ j ∧ (timeout < dur j ∨ cancelled j = true) ∧
      ∀ m, i ≤ m → m < j → ¬ (timeout < dur m ∨ cancelled m = true)) ∧
    ((∀ i, dur i ≤ timeout ∧ cancelled i = false) →
      ∀ fuel i, repeatExit timeout dur cancelled fuel i = none) := by
  constructor
  · intro fuel
    induction fuel with
    | zero => intro i j h; simp [repeatExit] at h
    | succ fuel ih =>
      intro i j h
      rw [repeatExit] at h
      by_cases h1 : timeout < dur i
      · rw [if_pos h1] at h
        obtain rfl : i = j := Option.some.inj h
        exact ⟨le_refl i, Or.inl h1, fun m hm1 hm2 => absurd (lt_of_le_of_lt hm1 hm2) (lt_irrefl i)⟩
      · rw [if_neg h1] at h
        by_cases h2 : cancelled i = true
        · rw [if_pos h2] at h
          obtain rfl : i = j := Option.some.inj h
          exact ⟨le_refl i, Or.inr h2, fun m hm1 hm2 => absurd (lt_of_le_of_lt hm1 hm2) (lt_irrefl i)⟩
        · rw [if_neg h2] at h
          obtain ⟨hij, hcond, hmin⟩ := ih (i + 1) j h
          refine ⟨by omega, hcond, ?_⟩
          intro m hm1 hm2
          by_cases hmi : m = i
          · subst hmi
            rintro (hc | hc)
            · exact h1 hc
            · exact h2 hc
          · exact hmin m (by omega) hm2
  · intro hfast fuel
    induction fuel with
    | zero => intro i; rfl
    | succ fuel ih =>
      intro i
      rw [repeatExit]
      have h1 : ¬ timeout < dur i := by have := (hfast i).1; omega
      have h2 : ¬ cancelled i = true := by simp [(hfast i).2]
      rw [if_neg h1, if_neg h2]
      exact ih (i + 1)

/-- A concrete body span: every invocation takes 3 time units. -/
def durSlow : Nat → Nat := fun _ => 3

/-- A concrete cancellation signal: Break is observed from iteration 2. -/
def cancelAtTwo : Nat → Bool := fun i => decide (2 ≤ i)

/-- Witness for C8: with interval 10, body span 3 and cancellation at
iteration 2, the loop exits at iteration 2, where the exit condition (here
the cancellation disjunct) holds. -/
theorem repeatableTask_exit_witness :
    (0:Nat) ≤ 2 ∧ (10 < durSlow 2 ∨ cancelAtTwo 2 = true) :=
  ⟨((repeatableTask_exit_condition 10 durSlow cancelAtTwo).1 5 0 2 (by decide)).1,
   ((repeatableTask_exit_condition 10 durSlow cancelAtTwo).1 5 0 2 (by decide)).2.1⟩

/-- NewJobPool (src/file_storage.go:198-217): numWorkers starts at
runtime.NumCPU()−1, is lowered to jobQueueLen when that is smaller, and
is forced to 1 when the result is 0.  Arguments are modelled as Nat:
NumCPU() is always at least 1 and every caller passes a list length. -/
def newJobPoolWorkers (numCPU jobQueueLen : Nat) : Nat :=
  let numWorkers := numCPU - 1
  let numWorkers := if jobQueueLen < numWorkers then jobQueueLen else numWorkers
  if numWorkers = 0 then 1 else numWorkers

/-- Modelled from the spec's words: "Default worker count = max(1,
available hardware parallelism − 1), capped at the requested queue
length" — the claimed formula, for comparison with newJobPoolWorkers. -/
def specWorkerCount (parallelism jobQueueLen : Nat) : Nat :=
  min (max 1 (parallelism - 1)) jobQueueLen

/-- C9 (amended): for every requested queue length L ≥ 1 the worker count
chosen by NewJobPool equals max(1, NumCPU−1) capped at L — in particular
it never exceeds L; the universal form of the claim fails only at L = 0,
where the code forces one worker while the capped formula gives zero.
(src/file_storage.go:198-217) -/
theorem newJobPool_worker_count (numCPU jobQueueLen : Nat) (hc : 1 ≤ numCPU)
    (hq : 1 ≤ jobQueueLen) :
    newJobPoolWorkers numCPU jobQueueLen = specWorkerCount numCPU jobQueueLen := by
  simp only [newJobPoolWorkers, specWorkerCount]
  rw [Nat.min_def, Nat.max_def]
  split_ifs <;> omega

/-- Witness for C9 (amended): with 4 CPUs and queue length 2 both the code
and the claimed formula give 2 workers. -/
theorem newJobPool_worker_count_witness :
    newJobPoolWorkers 4 2 = specWorkerCount 4 2 :=
  newJobPool_worker_count 4 2 (by decide) (by decide)

/-- Counterexample for C9 as stated: at queue length 0 — reachable, e.g.
Start() on an empty registry calls NewJobPool(0) — with 4 CPUs the code
creates 1 worker, while the claimed formula max(1, 4−1) capped at 0
gives 0. -/
theorem newJobPool_zero_queue_counterexample :
    newJobPoolWorkers 4 0 = 1 ∧ specWorkerCount 4 0 = 0 ∧
    ¬ newJobPoolWorkers 4 0 = specWorkerCount 4 0 := by decide

end Common
